import Mathlib

/-!
Verification of the Rank Selector of the "Ranking the World" dashboard.

The program under study keeps one table per indicator (`indicator_dfs` in
`app.py`), each table having columns Country, Value, Rank and
Country_with_rank, sorted by Rank. The function `return_chart_data`
(app.py lines 62-83) selects the rows to display for a given mode
("top10" or "country") and an optional selected country. We embed a
pandas DataFrame as a `Frame`: a list of column names plus a list of
rows, where each row carries the four fields the selector touches.
Pandas `nlargest` / `nsmallest` / `sort_values` are embedded with the
stable `List.insertionSort` of Mathlib; `Series.max` is a fold of
`Nat.max`; the partial positional access `.iloc[0]` is embedded with
`Option` (`none` models an IndexError), so `return_chart_data` returns
an `Option Frame` and error-freedom is the statement that the result is
always `some`.
-/

/-- One row of an indicator table: the four columns touched by the
selector. `Value` is embedded as an integer (only its order matters to
the code under study) and `Rank` as a natural number. -/
structure Row where
  country : String
  value : Int
  rank : Nat
  country_with_rank : String
deriving DecidableEq, Repr

/-- A pandas DataFrame, embedded as its list of column names plus its
list of rows (in frame order). -/
structure Frame where
  cols : List String
  rows : List Row
deriving DecidableEq, Repr

/-- The display mode: the radio button of the app has exactly the two
values "top10" and "country". -/
inductive Mode where
  | top10 : Mode
  | country : Mode
deriving DecidableEq, Repr

/-- Order on rows by the Value column, ascending. -/
def valLE (a b : Row) : Prop := a.value ≤ b.value

/-- Order on rows by the Value column, descending. -/
def valGE (a b : Row) : Prop := b.value ≤ a.value

/-- Order on rows by the Rank column, ascending. -/
def rankLE (a b : Row) : Prop := a.rank ≤ b.rank

instance : DecidableRel valLE := fun a b => inferInstanceAs (Decidable (a.value ≤ b.value))

instance : DecidableRel valGE := fun a b => inferInstanceAs (Decidable (b.value ≤ a.value))

instance : DecidableRel rankLE := fun a b => inferInstanceAs (Decidable (a.rank ≤ b.rank))

instance : IsTotal Row valLE := ⟨fun a b => Int.le_total a.value b.value⟩

instance : IsTrans Row valLE := ⟨fun _ _ _ hab hbc => le_trans hab hbc⟩

instance : IsTotal Row valGE := ⟨fun a b => Int.le_total b.value a.value⟩

instance : IsTrans Row valGE := ⟨fun _ _ _ hab hbc => le_trans hbc hab⟩

instance : IsTotal Row rankLE := ⟨fun a b => Nat.le_total a.rank b.rank⟩

instance : IsTrans Row rankLE := ⟨fun _ _ _ hab hbc => le_trans hab hbc⟩

/-- pandas `df.nlargest(n, "Value")` with the default `keep="first"`:
the first `n` rows in descending Value order, first occurrences
prioritised among ties (a stable descending sort followed by `take`). -/
def nlargest (n : Nat) (rows : List Row) : List Row :=
  (List.insertionSort valGE rows).take n

/-- pandas `df.nsmallest(n, "Value")` with the default `keep="first"`. -/
def nsmallest (n : Nat) (rows : List Row) : List Row :=
  (List.insertionSort valLE rows).take n

/-- pandas `df.sort_values(by="Value", ascending=True)`. -/
def sort_values_Value_asc (rows : List Row) : List Row :=
  List.insertionSort valLE rows

/-- pandas `df.sort_values(by="Rank", ascending=True)`. -/
def sort_values_Rank_asc (rows : List Row) : List Row :=
  List.insertionSort rankLE rows

/-- pandas `df["Rank"].max()`; on the code path that uses it the frame
is never empty (`0` is returned here for the empty list, a value the
code never observes). -/
def maxRank (rows : List Row) : Nat :=
  (rows.map Row.rank).foldr Nat.max 0

/-- The rank lookup of app.py line 72,
`df.loc[df["Country"] == selected_country, "Rank"].iloc[0]`:
the Rank of the first row whose Country is the selected country;
`none` embeds the IndexError that `.iloc[0]` raises on an empty
selection. -/
def countryRank (rows : List Row) (c : String) : Option Nat :=
  ((rows.filter (fun row => decide (row.country = c))).head?).map Row.rank

/-- The columns of the empty DataFrame built at app.py line 70. -/
def stdCols : List String :=
  ["Country", "Value", "Rank", "Country_with_rank"]

/-- Embedding of `return_chart_data` (app.py lines 62-83), applied to
the per-indicator frame (already looked up and copied, line 63).
Branches:
the top-10 branch (line 65-66) when mode is "top10" or no country was
chosen; the empty frame with the four standard columns (lines 69-70)
when the chosen country is absent; then, with `r` the rank of the
chosen country and `countries_count` the maximal rank, the top 10 when
`r ≤ 10` (76-77), the bottom 10 when `r ≥ countries_count - 10` (78-79),
and otherwise the rows with Rank in `[r-5, r+4]` sorted by Rank
(81-83). All non-empty-frame branches keep the columns of the input
frame. -/
def return_chart_data (f : Frame) (mode : Mode) (selected_country : Option String) :
    Option Frame :=
  match mode, selected_country with
  | Mode.top10, _ =>
      some ⟨f.cols, sort_values_Value_asc (nlargest 10 f.rows)⟩
  | Mode.country, none =>
      some ⟨f.cols, sort_values_Value_asc (nlargest 10 f.rows)⟩
  | Mode.country, some c =>
      if c ∈ f.rows.map Row.country then
        match countryRank f.rows c with
        | none => none
        | some r =>
          let countries_count := maxRank f.rows
          if r ≤ 10 then
            some ⟨f.cols, sort_values_Value_asc (nlargest 10 f.rows)⟩
          else if countries_count - 10 ≤ r then
            some ⟨f.cols, sort_values_Value_asc (nsmallest 10 f.rows)⟩
          else
            some ⟨f.cols, sort_values_Rank_asc
              (f.rows.filter (fun row => decide (r - 5 ≤ row.rank ∧ row.rank ≤ r + 4)))⟩
      else
        some ⟨stdCols, []⟩

/-- The data-model invariant of an IndicatorTable: the Rank column is a
permutation of `1..N` where `N` is the row count (dense, unique,
1-based ranks). -/
def denseRanks (rows : List Row) : Prop :=
  (rows.map Row.rank).Perm (List.range' 1 rows.length)

instance (rows : List Row) : Decidable (denseRanks rows) :=
  inferInstanceAs (Decidable ((rows.map Row.rank).Perm (List.range' 1 rows.length)))

/-- The data-model invariant that the Country column is unique within
an indicator table. -/
def uniqueCountries (rows : List Row) : Prop :=
  (rows.map Row.country).Nodup

instance (rows : List Row) : Decidable (uniqueCountries rows) :=
  inferInstanceAs (Decidable ((rows.map Row.country).Nodup))

/-! ### Helper lemmas about the lookup of app.py line 72 -/

/-- If the selected country occurs in the Country column, the filtered
frame of line 72 is non-empty and its first row carries that country. -/
theorem filter_head_some {rows : List Row} {c : String}
    (h : c ∈ rows.map Row.country) :
    ∃ row, (rows.filter (fun x => decide (x.country = c))).head? = some row ∧
      row ∈ rows ∧ row.country = c := by
  induction rows with
  | nil => simp at h
  | cons x t ih =>
    by_cases hx : x.country = c
    · exact ⟨x, by simp [List.filter, hx], List.mem_cons_self x t, hx⟩
    · have hmem : c ∈ t.map Row.country := by
        rcases List.mem_map.mp h with ⟨row, hrow, hc⟩
        rcases List.mem_cons.mp hrow with rfl | hrow
        · exact absurd hc hx
        · exact List.mem_map.mpr ⟨row, hrow, hc⟩
      rcases ih hmem with ⟨row, hhead, hrowmem, hc⟩
      exact ⟨row, by simpa [List.filter, hx] using hhead,
        List.mem_cons_of_mem x hrowmem, hc⟩

/-- The rank lookup succeeds whenever the membership test of line 69
succeeds. -/
theorem countryRank_isSome {rows : List Row} {c : String}
    (h : c ∈ rows.map Row.country) :
    ∃ row, countryRank rows c = some row.rank ∧ row ∈ rows ∧ row.country = c := by
  rcases filter_head_some h with ⟨row, hhead, hmem, hc⟩
  exact ⟨row, by simp [countryRank, hhead], hmem, hc⟩

/-- With unique countries (the data-model invariant), the rank lookup
returns exactly the rank of the unique row of the selected country. -/
theorem countryRank_eq_of_mem {rows : List Row} {row : Row} {c : String}
    (hu : uniqueCountries rows) (hmem : row ∈ rows) (hc : row.country = c) :
    countryRank rows c = some row.rank := by
  induction rows with
  | nil => simp at hmem
  | cons x t ih =>
    have h0 := List.nodup_cons.mp
      (show (x.country :: t.map Row.country).Nodup from hu)
    rcases List.mem_cons.mp hmem with rfl | hmemt
    · simp [countryRank, List.filter, hc]
    · have hxc : x.country ≠ c := by
        intro hxc
        exact h0.1 (List.mem_map.mpr ⟨row, hmemt, by rw [hc, hxc]⟩)
      have := ih h0.2 hmemt
      simpa [countryRank, List.filter, hxc] using this

/-! ### Helper lemmas about sorting, taking and counting -/

/-- A list is a permutation of the take/drop split of any of its
insertion sorts. -/
theorem perm_take_drop_insertionSort (r : Row → Row → Prop) [DecidableRel r]
    (l : List Row) (n : Nat) :
    l.Perm ((List.insertionSort r l).take n ++ (List.insertionSort r l).drop n) := by
  rw [List.take_append_drop]
  exact (List.perm_insertionSort r l).symm

/-- Every taken element of a sorted list is related to every dropped
element. -/
theorem sorted_take_drop_rel (r : Row → Row → Prop) [DecidableRel r]
    [IsTotal Row r] [IsTrans Row r] (l : List Row) (n : Nat) :
    ∀ a ∈ (List.insertionSort r l).take n, ∀ b ∈ (List.insertionSort r l).drop n, r a b := by
  have hs : List.Sorted r (List.insertionSort r l) := List.sorted_insertionSort r l
  rw [← List.take_append_drop n (List.insertionSort r l)] at hs
  exact (List.pairwise_append.mp hs).2.2

/-- Folding `Nat.max` is invariant under permutation. -/
theorem foldr_max_perm {l₁ l₂ : List Nat} (h : l₁.Perm l₂) (b : Nat) :
    l₁.foldr Nat.max b = l₂.foldr Nat.max b := by
  induction h with
  | nil => rfl
  | cons x _ ih => simp [List.foldr, ih]
  | swap x y l => simp [List.foldr, Nat.max_left_comm]
  | trans _ _ ih₁ ih₂ => exact ih₁.trans ih₂

/-- The fold of `Nat.max` over a contiguous range starting from `0`:
the greatest element of the range (or `0` for the empty range). -/
theorem foldr_max_range' : ∀ (n s : Nat),
    (List.range' s n).foldr Nat.max 0 = if n = 0 then 0 else s + n - 1 := by
  intro n
  induction n with
  | zero => intro s; rfl
  | succ m ih =>
    intro s
    rw [List.range']
    show Nat.max s ((List.range' (s + 1) m).foldr Nat.max 0) = _
    rw [ih (s + 1)]
    by_cases hm : m = 0
    · subst hm
      simp
    · rw [if_neg hm, if_neg (Nat.succ_ne_zero m)]
      have h1 : s + 1 + m - 1 = s + m := by omega
      rw [h1, Nat.max_eq_max, Nat.max_eq_right (Nat.le_add_right s m)]
      omega

/-- With dense ranks `1..N`, the `countries_count` of app.py line 73 is
the row count. -/
theorem maxRank_of_dense {rows : List Row} (hd : denseRanks rows) :
    maxRank rows = rows.length := by
  unfold maxRank
  rw [foldr_max_perm hd 0, foldr_max_range']
  by_cases h : rows.length = 0
  · simp [h]
  · rw [if_neg h]
    omega

/-- With dense ranks, every rank occurring in the table is between 1
and the row count. -/
theorem rank_bounds_of_dense {rows : List Row} {row : Row}
    (hd : denseRanks rows) (h : row ∈ rows) :
    1 ≤ row.rank ∧ row.rank ≤ rows.length := by
  have : row.rank ∈ List.range' 1 rows.length :=
    hd.mem_iff.mp (List.mem_map.mpr ⟨row, h, rfl⟩)
  have := List.mem_range'_1.mp this
  omega

/-- Counting the members of a closed interval inside a contiguous
range. -/
theorem countP_interval_range' (lo hi : Nat) : ∀ (n s : Nat),
    (List.range' s n).countP (fun k => decide (lo ≤ k ∧ k ≤ hi)) =
      min (hi + 1) (s + n) - max lo s := by
  intro n
  induction n with
  | zero =>
    intro s
    show (0 : Nat) = min (hi + 1) (s + 0) - max lo s
    omega
  | succ m ih =>
    intro s
    rw [List.range']
    rw [List.countP_cons, ih (s + 1)]
    by_cases hs : lo ≤ s ∧ s ≤ hi
    · rw [if_pos (by simpa using hs)]
      omega
    · rw [if_neg (by simpa using hs)]
      omega

/-- The number of table rows whose Rank lies in a closed interval, for
a table with dense ranks. -/
theorem length_filter_interval {rows : List Row} (hd : denseRanks rows)
    (lo hi : Nat) :
    (rows.filter (fun row => decide (lo ≤ row.rank ∧ row.rank ≤ hi))).length =
      min (hi + 1) (1 + rows.length) - max lo 1 := by
  rw [← List.countP_eq_length_filter]
  have hmap : (rows.map Row.rank).countP (fun k => decide (lo ≤ k ∧ k ≤ hi)) =
      rows.countP (fun row => decide (lo ≤ row.rank ∧ row.rank ≤ hi)) := by
    rw [List.countP_map]
    rfl
  rw [← hmap, hd.countP_eq, countP_interval_range']

/-! ### Branch equations of the selector -/

/-- Branch of app.py line 65-66, mode "top10". -/
theorem rcd_top10 (f : Frame) (sc : Option String) :
    return_chart_data f Mode.top10 sc =
      some ⟨f.cols, sort_values_Value_asc (nlargest 10 f.rows)⟩ := rfl

/-- Branch of app.py line 65-66, mode "country" with no chosen country. -/
theorem rcd_country_none (f : Frame) :
    return_chart_data f Mode.country none =
      some ⟨f.cols, sort_values_Value_asc (nlargest 10 f.rows)⟩ := rfl

/-- Branch of app.py lines 69-70: country absent from the table. -/
theorem rcd_not_found {f : Frame} {c : String}
    (h : c ∉ f.rows.map Row.country) :
    return_chart_data f Mode.country (some c) = some ⟨stdCols, []⟩ := by
  simp [return_chart_data, h]

/-- Branch of app.py lines 76-77: selected rank at most 10. -/
theorem rcd_found_top {f : Frame} {c : String} {r : Nat}
    (hm : c ∈ f.rows.map Row.country) (hr : countryRank f.rows c = some r)
    (h10 : r ≤ 10) :
    return_chart_data f Mode.country (some c) =
      some ⟨f.cols, sort_values_Value_asc (nlargest 10 f.rows)⟩ := by
  simp [return_chart_data, hm, hr, h10]

/-- Branch of app.py lines 78-79: selected rank in the bottom 10. -/
theorem rcd_found_bottom {f : Frame} {c : String} {r : Nat}
    (hm : c ∈ f.rows.map Row.country) (hr : countryRank f.rows c = some r)
    (h10 : ¬ r ≤ 10) (hb : maxRank f.rows - 10 ≤ r) :
    return_chart_data f Mode.country (some c) =
      some ⟨f.cols, sort_values_Value_asc (nsmallest 10 f.rows)⟩ := by
  simp [return_chart_data, hm, hr, h10, hb]

/-- Branch of app.py lines 81-83: the rank window `[r-5, r+4]`. -/
theorem rcd_found_window {f : Frame} {c : String} {r : Nat}
    (hm : c ∈ f.rows.map Row.country) (hr : countryRank f.rows c = some r)
    (h10 : ¬ r ≤ 10) (hb : ¬ maxRank f.rows - 10 ≤ r) :
    return_chart_data f Mode.country (some c) =
      some ⟨f.cols, sort_values_Rank_asc
        (f.rows.filter (fun row => decide (r - 5 ≤ row.rank ∧ row.rank ≤ r + 4)))⟩ := by
  simp [return_chart_data, hm, hr, h10, hb]

/-! ### Characterisation of the top-10 and bottom-10 selections -/

/-- The rows of `nlargest 10` re-sorted ascending: there are
`min 10 N` of them, they are sorted ascending by Value, and they
dominate (in Value) every row not selected. -/
theorem topTen_spec (rows : List Row) :
    (sort_values_Value_asc (nlargest 10 rows)).length = min 10 rows.length ∧
    List.Sorted valLE (sort_values_Value_asc (nlargest 10 rows)) ∧
    ∃ rest, rows.Perm (sort_values_Value_asc (nlargest 10 rows) ++ rest) ∧
      ∀ a ∈ sort_values_Value_asc (nlargest 10 rows), ∀ b ∈ rest, b.value ≤ a.value := by
  refine ⟨?_, ?_, ?_⟩
  · simp [sort_values_Value_asc, nlargest, List.length_insertionSort, List.length_take]
  · exact List.sorted_insertionSort valLE _
  · refine ⟨(List.insertionSort valGE rows).drop 10, ?_, ?_⟩
    · exact (perm_take_drop_insertionSort valGE rows 10).trans
        ((List.perm_insertionSort valLE _).symm.append_right _)
    · intro a ha b hb
      have ha' : a ∈ (List.insertionSort valGE rows).take 10 := by
        have := (List.mem_insertionSort valLE).mp ha
        simpa [nlargest] using this
      exact sorted_take_drop_rel valGE rows 10 a ha' b hb

/-- The rows of `nsmallest 10` re-sorted ascending: there are
`min 10 N` of them, they are sorted ascending by Value, and they are
dominated (in Value) by every row not selected. -/
theorem bottomTen_spec (rows : List Row) :
    (sort_values_Value_asc (nsmallest 10 rows)).length = min 10 rows.length ∧
    List.Sorted valLE (sort_values_Value_asc (nsmallest 10 rows)) ∧
    ∃ rest, rows.Perm (sort_values_Value_asc (nsmallest 10 rows) ++ rest) ∧
      ∀ a ∈ sort_values_Value_asc (nsmallest 10 rows), ∀ b ∈ rest, a.value ≤ b.value := by
  refine ⟨?_, ?_, ?_⟩
  · simp [sort_values_Value_asc, nsmallest, List.length_insertionSort, List.length_take]
  · exact List.sorted_insertionSort valLE _
  · refine ⟨(List.insertionSort valLE rows).drop 10, ?_, ?_⟩
    · exact (perm_take_drop_insertionSort valLE rows 10).trans
        ((List.perm_insertionSort valLE _).symm.append_right _)
    · intro a ha b hb
      have ha' : a ∈ (List.insertionSort valLE rows).take 10 := by
        have := (List.mem_insertionSort valLE).mp ha
        simpa [nsmallest] using this
      exact sorted_take_drop_rel valLE rows 10 a ha' b hb

/-- Characterisation of the rank-window selection of app.py lines
81-83 on a table with dense ranks: when `10 < r` and `r + 10 < N` the
window holds exactly 10 rows, sorted ascending by Rank, and they are
exactly the table rows with Rank in `[r-5, r+4]`. -/
theorem window_spec {rows : List Row} (hd : denseRanks rows) {r : Nat}
    (h1 : 10 < r) (h2 : r + 10 < rows.length) :
    (sort_values_Rank_asc
        (rows.filter (fun row => decide (r - 5 ≤ row.rank ∧ row.rank ≤ r + 4)))).length = 10 ∧
    List.Sorted rankLE (sort_values_Rank_asc
        (rows.filter (fun row => decide (r - 5 ≤ row.rank ∧ row.rank ≤ r + 4)))) ∧
    ∀ row, row ∈ sort_values_Rank_asc
        (rows.filter (fun row => decide (r - 5 ≤ row.rank ∧ row.rank ≤ r + 4))) ↔
      row ∈ rows ∧ r - 5 ≤ row.rank ∧ row.rank ≤ r + 4 := by
  refine ⟨?_, List.sorted_insertionSort rankLE _, ?_⟩
  · rw [sort_values_Rank_asc, List.length_insertionSort,
      length_filter_interval hd (r - 5) (r + 4)]
    omega
  · intro row
    simp [sort_values_Rank_asc, List.mem_filter]

/-! ### The claims -/

/-- C1: for a table with dense ranks `1..N` and a country of rank `r`
with `10 < r < N - 10`, the selector returns exactly the 10 rows with
Rank in `[r-5, r+4]`, ordered ascending by Rank, and the selected
country's row is among them. -/
theorem C1_around_country_window (f : Frame) (c : String) (r : Nat)
    (hd : denseRanks f.rows) (hu : uniqueCountries f.rows)
    (hc : ∃ row ∈ f.rows, row.country = c ∧ row.rank = r)
    (h1 : 10 < r) (h2 : r < f.rows.length - 10) :
    ∃ g, return_chart_data f Mode.country (some c) = some g ∧
      g.rows.length = 10 ∧
      List.Sorted rankLE g.rows ∧
      (∀ row, row ∈ g.rows ↔ row ∈ f.rows ∧ r - 5 ≤ row.rank ∧ row.rank ≤ r + 4) ∧
      ∃ row ∈ g.rows, row.country = c := by
  rcases hc with ⟨row0, hmem0, hc0, hr0⟩
  have hm : c ∈ f.rows.map Row.country := List.mem_map.mpr ⟨row0, hmem0, hc0⟩
  have hr : countryRank f.rows c = some r := by
    rw [← hr0]; exact countryRank_eq_of_mem hu hmem0 hc0
  have hN := maxRank_of_dense hd
  have h2' : r + 10 < f.rows.length := by omega
  have h10 : ¬ r ≤ 10 := by omega
  have hb : ¬ maxRank f.rows - 10 ≤ r := by rw [hN]; omega
  rw [rcd_found_window hm hr h10 hb]
  rcases window_spec hd h1 h2' with ⟨hlen, hsort, hmemiff⟩
  refine ⟨_, rfl, hlen, hsort, hmemiff, row0, ?_, hc0⟩
  exact (hmemiff row0).mpr ⟨hmem0, by omega, by omega⟩

/-- C2: in mode "top10", or in mode "country" with no country chosen,
the selector returns exactly `min 10 N` rows, the rows of largest
Value, ordered ascending by Value. -/
theorem C2_top_ten (f : Frame) (mode : Mode) (sc : Option String)
    (h : mode = Mode.top10 ∨ (mode = Mode.country ∧ sc = none)) :
    ∃ g, return_chart_data f mode sc = some g ∧
      g.rows.length = min 10 f.rows.length ∧
      List.Sorted valLE g.rows ∧
      ∃ rest, f.rows.Perm (g.rows ++ rest) ∧
        ∀ a ∈ g.rows, ∀ b ∈ rest, b.value ≤ a.value := by
  have hg : return_chart_data f mode sc =
      some ⟨f.cols, sort_values_Value_asc (nlargest 10 f.rows)⟩ := by
    rcases h with rfl | ⟨rfl, rfl⟩
    · exact rcd_top10 f sc
    · exact rcd_country_none f
  rcases topTen_spec f.rows with ⟨hlen, hsort, hrest⟩
  exact ⟨_, hg, hlen, hsort, hrest⟩

/-- C3: for a country of rank `r` with `r > 10` and `r ≥ N - 10`, the
selector returns the 10 rows of smallest Value, ordered ascending by
Value. -/
theorem C3_bottom_ten (f : Frame) (c : String) (r : Nat)
    (hd : denseRanks f.rows) (hu : uniqueCountries f.rows)
    (hc : ∃ row ∈ f.rows, row.country = c ∧ row.rank = r)
    (h1 : 10 < r) (h2 : f.rows.length - 10 ≤ r) :
    ∃ g, return_chart_data f Mode.country (some c) = some g ∧
      g.rows.length = 10 ∧
      List.Sorted valLE g.rows ∧
      ∃ rest, f.rows.Perm (g.rows ++ rest) ∧
        ∀ a ∈ g.rows, ∀ b ∈ rest, a.value ≤ b.value := by
  rcases hc with ⟨row0, hmem0, hc0, hr0⟩
  have hm : c ∈ f.rows.map Row.country := List.mem_map.mpr ⟨row0, hmem0, hc0⟩
  have hr : countryRank f.rows c = some r := by
    rw [← hr0]; exact countryRank_eq_of_mem hu hmem0 hc0
  have hN := maxRank_of_dense hd
  have hrle : r ≤ f.rows.length := by
    have := rank_bounds_of_dense hd hmem0
    omega
  have h10 : ¬ r ≤ 10 := by omega
  have hb : maxRank f.rows - 10 ≤ r := by rw [hN]; exact h2
  rw [rcd_found_bottom hm hr h10 hb]
  rcases bottomTen_spec f.rows with ⟨hlen, hsort, hrest⟩
  refine ⟨_, rfl, ?_, hsort, hrest⟩
  rw [hlen]
  omega

/-- C4: for a country of rank `r ≤ 10`, selecting around that country
returns exactly the same frame as the "top10" mode: the top 10 rows by
Value, ordered ascending by Value. -/
theorem C4_top_rank_same_as_top_ten (f : Frame) (c : String) (r : Nat)
    (hu : uniqueCountries f.rows)
    (hc : ∃ row ∈ f.rows, row.country = c ∧ row.rank = r)
    (h10 : r ≤ 10) :
    return_chart_data f Mode.country (some c) = return_chart_data f Mode.top10 none ∧
    ∃ g, return_chart_data f Mode.top10 none = some g ∧
      g.rows.length = min 10 f.rows.length ∧
      List.Sorted valLE g.rows ∧
      ∃ rest, f.rows.Perm (g.rows ++ rest) ∧
        ∀ a ∈ g.rows, ∀ b ∈ rest, b.value ≤ a.value := by
  rcases hc with ⟨row0, hmem0, hc0, hr0⟩
  have hm : c ∈ f.rows.map Row.country := List.mem_map.mpr ⟨row0, hmem0, hc0⟩
  have hr : countryRank f.rows c = some r := by
    rw [← hr0]; exact countryRank_eq_of_mem hu hmem0 hc0
  constructor
  · rw [rcd_found_top hm hr h10, rcd_top10]
  · rcases topTen_spec f.rows with ⟨hlen, hsort, hrest⟩
    exact ⟨_, rcd_top10 f none, hlen, hsort, hrest⟩

/-- The selector never fails: every branch, including the
country-lookup branch, yields a frame. -/
theorem rcd_isSome (f : Frame) (mode : Mode) (sc : Option String) :
    (return_chart_data f mode sc).isSome = true := by
  match mode, sc with
  | Mode.top10, sc => rfl
  | Mode.country, none => rfl
  | Mode.country, some c =>
    by_cases hm : c ∈ f.rows.map Row.country
    · rcases countryRank_isSome hm with ⟨row, hr, _, _⟩
      by_cases h10 : row.rank ≤ 10
      · rw [rcd_found_top hm hr h10]; rfl
      · by_cases hb : maxRank f.rows - 10 ≤ row.rank
        · rw [rcd_found_bottom hm hr h10 hb]; rfl
        · rw [rcd_found_window hm hr h10 hb]; rfl
    · rw [rcd_not_found hm]; rfl

/-- C5: a country absent from the table yields the empty frame, and no
input at all can make the selector fail: absence of data is signalled
only by the empty result. -/
theorem C5_not_found_empty_and_total (f : Frame) (c : String)
    (h : c ∉ f.rows.map Row.country) :
    return_chart_data f Mode.country (some c) = some ⟨stdCols, []⟩ ∧
    ∀ (g : Frame) (mode : Mode) (sc : Option String),
      (return_chart_data g mode sc).isSome = true :=
  ⟨rcd_not_found h, fun g mode sc => rcd_isSome g mode sc⟩

/-- C8: whenever the membership test of app.py line 69 succeeds, the
rank lookup of line 72 finds a first matching row (so `.iloc[0]` cannot
fail), and the whole country branch is total. -/
theorem C8_lookup_guarded_by_membership (rows : List Row) (c : String)
    (h : c ∈ rows.map Row.country) :
    (∃ row, (rows.filter (fun x => decide (x.country = c))).head? = some row ∧
      row ∈ rows ∧ row.country = c ∧ countryRank rows c = some row.rank) ∧
    ∀ cols : List String,
      (return_chart_data ⟨cols, rows⟩ Mode.country (some c)).isSome = true := by
  constructor
  · rcases filter_head_some h with ⟨row, hh, hmem, hcc⟩
    exact ⟨row, hh, hmem, hcc, by simp [countryRank, hh]⟩
  · intro cols
    exact rcd_isSome _ _ _

/-- C6 (counterexample to the claim as stated): the empty table is an
explicitly permitted input with dense ranks, and in mode "top10" the
selector returns 0 rows even though the mode is not
ShowAroundCountry. -/
theorem C6_counterexample :
    denseRanks (Frame.mk stdCols []).rows ∧
    return_chart_data ⟨stdCols, []⟩ Mode.top10 none = some ⟨stdCols, []⟩ ∧
    (Frame.mk stdCols []).rows.length = 0 ∧
    Mode.top10 ≠ Mode.country := by
  refine ⟨by decide, rfl, rfl, by decide⟩

/-- C6 (amended): for every table with dense ranks and every mode, the
result exists, has at most 10 rows, and has 0 rows only when the table
itself is empty or when the mode is ShowAroundCountry with a country
absent from the table. -/
theorem C6_amended_at_most_ten (f : Frame) (mode : Mode) (sc : Option String)
    (hd : denseRanks f.rows) :
    ∃ g, return_chart_data f mode sc = some g ∧
      g.rows.length ≤ 10 ∧
      (g.rows.length = 0 →
        f.rows = [] ∨
          (mode = Mode.country ∧ ∃ c, sc = some c ∧ c ∉ f.rows.map Row.country)) := by
  match mode, sc with
  | Mode.top10, sc =>
    rcases topTen_spec f.rows with ⟨hlen, _, _⟩
    refine ⟨_, rcd_top10 f sc, ?_, ?_⟩
    · rw [hlen]; omega
    · intro h0
      rw [hlen] at h0
      exact Or.inl (List.length_eq_zero.mp (by omega))
  | Mode.country, none =>
    rcases topTen_spec f.rows with ⟨hlen, _, _⟩
    refine ⟨_, rcd_country_none f, ?_, ?_⟩
    · rw [hlen]; omega
    · intro h0
      rw [hlen] at h0
      exact Or.inl (List.length_eq_zero.mp (by omega))
  | Mode.country, some c =>
    by_cases hm : c ∈ f.rows.map Row.country
    · rcases countryRank_isSome hm with ⟨row, hr, hrowmem, _⟩
      have hpos : 0 < f.rows.length :=
        List.length_pos.mpr (List.ne_nil_of_mem hrowmem)
      by_cases h10 : row.rank ≤ 10
      · rcases topTen_spec f.rows with ⟨hlen, _, _⟩
        refine ⟨_, rcd_found_top hm hr h10, ?_, ?_⟩
        · rw [hlen]; omega
        · intro h0; rw [hlen] at h0; omega
      · by_cases hb : maxRank f.rows - 10 ≤ row.rank
        · rcases bottomTen_spec f.rows with ⟨hlen, _, _⟩
          refine ⟨_, rcd_found_bottom hm hr h10 hb, ?_, ?_⟩
          · rw [hlen]; omega
          · intro h0; rw [hlen] at h0; omega
        · have hN := maxRank_of_dense hd
          have h1 : 10 < row.rank := by omega
          have h2 : row.rank + 10 < f.rows.length := by
            rw [hN] at hb; omega
          rcases window_spec hd h1 h2 with ⟨hlen, _, _⟩
          refine ⟨_, rcd_found_window hm hr h10 hb, ?_, ?_⟩
          · rw [hlen]
          · intro h0; rw [hlen] at h0; omega
    · refine ⟨_, rcd_not_found hm, by simp, ?_⟩
      intro _
      exact Or.inr ⟨rfl, c, rfl, hm⟩

/-- The module-level store `indicator_dfs` of app.py, embedded as an
association list from indicator name to frame. -/
def IndicatorStore : Type := List (String × Frame)

/-- One call of `return_chart_data` as made by the app: the line-63
lookup `indicator_dfs[indicator_name]` (a KeyError, embedded as `none`,
if the name is unknown) followed by the selection; the call returns the
store as it leaves it, and the code never writes to the store (line 63
even copies the frame before use). -/
def return_chart_data_call (dfs : IndicatorStore) (ind : String)
    (mode : Mode) (sc : Option String) : Option Frame × IndicatorStore :=
  match List.lookup ind dfs with
  | none => (none, dfs)
  | some f => (return_chart_data f mode sc, dfs)

/-- C7: the selector is pure and deterministic: a call leaves the
stored per-indicator tables unchanged, and repeating a call with
identical arguments yields the identical result. -/
theorem C7_pure_and_deterministic (dfs : IndicatorStore) (ind : String)
    (mode : Mode) (sc : Option String) :
    (return_chart_data_call dfs ind mode sc).2 = dfs ∧
    (return_chart_data_call ((return_chart_data_call dfs ind mode sc).2)
        ind mode sc).1 =
      (return_chart_data_call dfs ind mode sc).1 := by
  have h2 : (return_chart_data_call dfs ind mode sc).2 = dfs := by
    unfold return_chart_data_call
    cases List.lookup ind dfs <;> rfl
  exact ⟨h2, by rw [h2]⟩

/-- Every frame the selector returns carries either the columns of the
input frame or the four standard columns of the line-70 empty frame. -/
theorem rcd_cols {f : Frame} {mode : Mode} {sc : Option String} {g : Frame}
    (h : return_chart_data f mode sc = some g) :
    g.cols = f.cols ∨ g.cols = stdCols := by
  match mode, sc with
  | Mode.top10, sc =>
    rw [rcd_top10] at h
    cases h
    exact Or.inl rfl
  | Mode.country, none =>
    rw [rcd_country_none] at h
    cases h
    exact Or.inl rfl
  | Mode.country, some c =>
    by_cases hm : c ∈ f.rows.map Row.country
    · rcases countryRank_isSome hm with ⟨row, hr, _, _⟩
      by_cases h10 : row.rank ≤ 10
      · rw [rcd_found_top hm hr h10] at h
        cases h
        exact Or.inl rfl
      · by_cases hb : maxRank f.rows - 10 ≤ row.rank
        · rw [rcd_found_bottom hm hr h10 hb] at h
          cases h
          exact Or.inl rfl
        · rw [rcd_found_window hm hr h10 hb] at h
          cases h
          exact Or.inl rfl
    · rw [rcd_not_found hm] at h
      cases h
      exact Or.inr rfl

/-- The `df_chart.sort_values(by="Rank", ascending=True)` step of
`create_countries_list` (app.py line 210): a KeyError (embedded as
`none`) if the frame has no Rank column. -/
def sort_values_Rank_frame (f : Frame) : Option Frame :=
  if "Rank" ∈ f.cols then some ⟨f.cols, sort_values_Rank_asc f.rows⟩ else none

/-- The `df_chart[["Country_with_rank"]].to_dict("records")` step of
`create_countries_list` (app.py line 216): the projection of the
Country_with_rank column, a KeyError (embedded as `none`) if that
column is missing. -/
def project_Country_with_rank (f : Frame) : Option (List String) :=
  if "Country_with_rank" ∈ f.cols then some (f.rows.map Row.country_with_rank)
  else none

/-- The data pipeline of `create_countries_list` (app.py lines
208-216): select, re-sort by Rank ascending, project the
Country_with_rank column. -/
def create_countries_list_data (f : Frame) (mode : Mode) (sc : Option String) :
    Option (List String) :=
  match return_chart_data f mode sc with
  | none => none
  | some g =>
    match sort_values_Rank_frame g with
    | none => none
    | some h => project_Country_with_rank h

/-- C9: in the country-not-found case the selector returns an empty
frame that still carries exactly the four columns Country, Value, Rank
and Country_with_rank, and the downstream operations of
`create_countries_list` (sorting by Rank, projecting Country_with_rank)
succeed on it — indeed they succeed on every selector result, empty or
not, of a frame carrying the Rank and Country_with_rank columns. -/
theorem C9_empty_frame_keeps_columns (f : Frame)
    (hRank : "Rank" ∈ f.cols) (hCwr : "Country_with_rank" ∈ f.cols) :
    (∀ c, c ∉ f.rows.map Row.country →
      ∃ g, return_chart_data f Mode.country (some c) = some g ∧
        g.cols = stdCols ∧ g.rows = [] ∧
        create_countries_list_data f Mode.country (some c) = some []) ∧
    ∀ (mode : Mode) (sc : Option String),
      (create_countries_list_data f mode sc).isSome = true := by
  have hstep : ∀ (mode : Mode) (sc : Option String),
      (create_countries_list_data f mode sc).isSome = true := by
    intro mode sc
    cases hg : return_chart_data f mode sc with
    | none =>
      have := rcd_isSome f mode sc
      rw [hg] at this
      cases this
    | some g =>
      have hcols : "Rank" ∈ g.cols ∧ "Country_with_rank" ∈ g.cols := by
        rcases rcd_cols hg with h | h <;> rw [h]
        · exact ⟨hRank, hCwr⟩
        · exact ⟨by decide, by decide⟩
      simp [create_countries_list_data, hg, sort_values_Rank_frame,
        project_Country_with_rank, hcols.1, hcols.2]
  refine ⟨?_, hstep⟩
  intro c hc
  refine ⟨⟨stdCols, []⟩, rcd_not_found hc, rfl, rfl, ?_⟩
  simp [create_countries_list_data, rcd_not_found hc, sort_values_Rank_frame,
    project_Country_with_rank, stdCols, sort_values_Rank_asc]

/-- Python truthiness of the dropdown value received by `update_all`:
`None` and the empty string are falsy, any other string is truthy. -/
def truthy : Option String → Bool
  | none => false
  | some s => !(s == "")

/-- The mode normalisation of `update_all` (app.py line 487):
`current_mode = "country" if (mode == "country" and country) else
"top10"`. -/
def update_all_current_mode (mode : String) (country : Option String) : String :=
  if mode = "country" ∧ truthy country = true then "country" else "top10"

/-- The translation of the mode string handed to the selector into the
two-valued mode enumeration. -/
def parseMode (s : String) : Mode :=
  if s = "country" then Mode.country else Mode.top10

/-- C10: `update_all` normalises the mode before any selection: the
mode it passes on is "country" exactly when the radio mode is "country"
and a non-empty country is chosen, and is "top10" in every other case,
so the selector's country branch is never entered through this callback
with an empty or missing country selection. -/
theorem C10_update_all_normalises_mode (mode : String) (country : Option String) :
    (update_all_current_mode mode country = "country" ↔
      mode = "country" ∧ ∃ s, country = some s ∧ s ≠ "") ∧
    (update_all_current_mode mode country = "country" ∨
      update_all_current_mode mode country = "top10") ∧
    (parseMode (update_all_current_mode mode country) = Mode.country →
      mode = "country" ∧ ∃ s, country = some s ∧ s ≠ "") := by
  have htruthy : truthy country = true ↔ ∃ s, country = some s ∧ s ≠ "" := by
    cases country with
    | none => simp [truthy]
    | some s => simp [truthy]
  by_cases h : mode = "country" ∧ truthy country = true
  · have heq : update_all_current_mode mode country = "country" := by
      unfold update_all_current_mode
      rw [if_pos h]
    refine ⟨⟨fun _ => ⟨h.1, htruthy.mp h.2⟩, fun _ => heq⟩, Or.inl heq, fun _ => ⟨h.1, htruthy.mp h.2⟩⟩
  · have heq : update_all_current_mode mode country = "top10" := by
      unfold update_all_current_mode
      rw [if_neg h]
    have hne : update_all_current_mode mode country ≠ "country" := by
      rw [heq]; decide
    refine ⟨⟨fun hcountry => absurd hcountry hne, ?_⟩, Or.inr heq, ?_⟩
    · rintro ⟨h1, hs⟩
      exact absurd ⟨h1, htruthy.mpr hs⟩ h
    · intro hp
      rw [heq] at hp
      have : parseMode "top10" = Mode.top10 := by
        unfold parseMode
        rw [if_neg (by decide)]
      rw [this] at hp
      cases hp

/-! ### Concrete witness tables -/

/-- A demonstration row: country named after its rank, Value decreasing
with rank. -/
def demoRow (k : Nat) : Row :=
  ⟨toString k, 100 - (k : Int), k, toString k⟩

/-- A demonstration table of `n` rows with dense ranks `1..n`. -/
def demoRows (n : Nat) : List Row :=
  (List.range' 1 n).map demoRow

/-- A demonstration frame with the four standard columns. -/
def demoFrame (n : Nat) : Frame :=
  ⟨stdCols, demoRows n⟩

/-- Witness for C1 on a 22-row table with the selected country at rank
11. -/
theorem C1_witness :
    (denseRanks (demoFrame 22).rows ∧ uniqueCountries (demoFrame 22).rows ∧
      (∃ row ∈ (demoFrame 22).rows, row.country = "11" ∧ row.rank = 11) ∧
      10 < 11 ∧ 11 < (demoFrame 22).rows.length - 10) ∧
    (∃ g, return_chart_data (demoFrame 22) Mode.country (some "11") = some g ∧
      g.rows.length = 10 ∧
      List.Sorted rankLE g.rows ∧
      (∀ row, row ∈ g.rows ↔
        row ∈ (demoFrame 22).rows ∧ 11 - 5 ≤ row.rank ∧ row.rank ≤ 11 + 4) ∧
      ∃ row ∈ g.rows, row.country = "11") :=
  ⟨⟨by decide, by decide, by decide, by decide, by decide⟩,
    C1_around_country_window (demoFrame 22) "11" 11
      (by decide) (by decide) (by decide) (by decide) (by decide)⟩

/-- Witness for C2 on a 3-row table in mode "top10". -/
theorem C2_witness :
    (Mode.top10 = Mode.top10 ∨
      (Mode.top10 = Mode.country ∧ (none : Option String) = none)) ∧
    (∃ g, return_chart_data (demoFrame 3) Mode.top10 none = some g ∧
      g.rows.length = min 10 (demoFrame 3).rows.length ∧
      List.Sorted valLE g.rows ∧
      ∃ rest, (demoFrame 3).rows.Perm (g.rows ++ rest) ∧
        ∀ a ∈ g.rows, ∀ b ∈ rest, b.value ≤ a.value) :=
  ⟨Or.inl rfl, C2_top_ten (demoFrame 3) Mode.top10 none (Or.inl rfl)⟩

/-- Witness for C3 on a 12-row table with the selected country at rank
11 (within the bottom 10). -/
theorem C3_witness :
    (denseRanks (demoFrame 12).rows ∧ uniqueCountries (demoFrame 12).rows ∧
      (∃ row ∈ (demoFrame 12).rows, row.country = "11" ∧ row.rank = 11) ∧
      10 < 11 ∧ (demoFrame 12).rows.length - 10 ≤ 11) ∧
    (∃ g, return_chart_data (demoFrame 12) Mode.country (some "11") = some g ∧
      g.rows.length = 10 ∧
      List.Sorted valLE g.rows ∧
      ∃ rest, (demoFrame 12).rows.Perm (g.rows ++ rest) ∧
        ∀ a ∈ g.rows, ∀ b ∈ rest, a.value ≤ b.value) :=
  ⟨⟨by decide, by decide, by decide, by decide, by decide⟩,
    C3_bottom_ten (demoFrame 12) "11" 11
      (by decide) (by decide) (by decide) (by decide) (by decide)⟩

/-- Witness for C4 on a 3-row table with the selected country at rank
2. -/
theorem C4_witness :
    (uniqueCountries (demoFrame 3).rows ∧
      (∃ row ∈ (demoFrame 3).rows, row.country = "2" ∧ row.rank = 2) ∧
      2 ≤ 10) ∧
    (return_chart_data (demoFrame 3) Mode.country (some "2") =
        return_chart_data (demoFrame 3) Mode.top10 none ∧
      ∃ g, return_chart_data (demoFrame 3) Mode.top10 none = some g ∧
        g.rows.length = min 10 (demoFrame 3).rows.length ∧
        List.Sorted valLE g.rows ∧
        ∃ rest, (demoFrame 3).rows.Perm (g.rows ++ rest) ∧
          ∀ a ∈ g.rows, ∀ b ∈ rest, b.value ≤ a.value) :=
  ⟨⟨by decide, by decide, by decide⟩,
    C4_top_rank_same_as_top_ten (demoFrame 3) "2" 2
      (by decide) (by decide) (by decide)⟩

/-- Witness for C5: a country absent from a 1-row table. -/
theorem C5_witness :
    ("Atlantis" ∉ (demoFrame 1).rows.map Row.country) ∧
    (return_chart_data (demoFrame 1) Mode.country (some "Atlantis") =
        some ⟨stdCols, []⟩ ∧
      ∀ (g : Frame) (mode : Mode) (sc : Option String),
        (return_chart_data g mode sc).isSome = true) :=
  ⟨by decide,
    C5_not_found_empty_and_total (demoFrame 1) "Atlantis" (by decide)⟩

/-- Witness for the amended C6 on a 2-row table in mode "top10". -/
theorem C6_witness :
    denseRanks (demoFrame 2).rows ∧
    (∃ g, return_chart_data (demoFrame 2) Mode.top10 none = some g ∧
      g.rows.length ≤ 10 ∧
      (g.rows.length = 0 →
        (demoFrame 2).rows = [] ∨
          (Mode.top10 = Mode.country ∧
            ∃ c, (none : Option String) = some c ∧
              c ∉ (demoFrame 2).rows.map Row.country))) :=
  ⟨by decide,
    C6_amended_at_most_ten (demoFrame 2) Mode.top10 none (by decide)⟩

/-- Witness for C8 on a 2-row table with the first country selected. -/
theorem C8_witness :
    ("1" ∈ (demoRows 2).map Row.country) ∧
    ((∃ row, ((demoRows 2).filter (fun x => decide (x.country = "1"))).head? =
        some row ∧ row ∈ demoRows 2 ∧ row.country = "1" ∧
        countryRank (demoRows 2) "1" = some row.rank) ∧
      ∀ cols : List String,
        (return_chart_data ⟨cols, demoRows 2⟩ Mode.country (some "1")).isSome = true) :=
  ⟨by decide,
    C8_lookup_guarded_by_membership (demoRows 2) "1" (by decide)⟩

/-- Witness for C9 on a 1-row frame with the standard columns. -/
theorem C9_witness :
    ("Rank" ∈ (demoFrame 1).cols ∧ "Country_with_rank" ∈ (demoFrame 1).cols) ∧
    ((∀ c, c ∉ (demoFrame 1).rows.map Row.country →
      ∃ g, return_chart_data (demoFrame 1) Mode.country (some c) = some g ∧
        g.cols = stdCols ∧ g.rows = [] ∧
        create_countries_list_data (demoFrame 1) Mode.country (some c) = some []) ∧
    ∀ (mode : Mode) (sc : Option String),
      (create_countries_list_data (demoFrame 1) mode sc).isSome = true) :=
  ⟨⟨by decide, by decide⟩,
    C9_empty_frame_keeps_columns (demoFrame 1) (by decide) (by decide)⟩
